import Mathlib

/-!
Shallow embedding of the language-dispatch and node-classifier layer of
rust-code-analysis (src/macros.rs), together with theorems settling the
spec claims about it.
-/

set_option autoImplicit false

/-- Position a node occupies inside its parent: the else-clause alternative
of an if statement, the consequence branch, or any other position. The
generated predicates never inspect this field; it is carried only so that
claims about child positions can be stated. -/
inductive ChildRole where
  | elseAlternative
  | consequence
  | other
deriving DecidableEq, Repr

/-- A syntax-node handle as seen by the generated classifier predicates:
the grammar-assigned integer kind id (node.object().kind_id()), the child
role, and upward navigation (node.object().parent()). -/
inductive Node where
  | mk (kindId : Nat) (role : ChildRole) (parent : Option Node)

def Node.kindId : Node → Nat
  | .mk k _ _ => k

def Node.role : Node → ChildRole
  | .mk _ r _ => r

def Node.parent : Node → Option Node
  | .mk _ _ p => p

/-- The kind id of the immediate parent, when a parent exists. -/
def Node.parentKindId (n : Node) : Option Nat :=
  n.parent.map Node.kindId

/-- The body of the predicate generated by mk_else_if (macros.rs lines
15-29), with the binding's if kind constant passed as if_type: an early
false return when the node's kind is not the if kind, then, if a parent
exists, a conjunction re-testing the node's kind and testing the parent's
kind, else false. -/
def is_else_if (if_type : Nat) (node : Node) : Bool :=
  if node.kindId ≠ if_type then
    false
  else
    match node.parent with
    | some parent => node.kindId == if_type && parent.kindId == if_type
    | none => false

/-- The body of a classifier predicate generated by mk_checker (macros.rs
lines 1-13): the disjunction false || typ == k1 || typ == k2 || ... over
the instantiation's list of kind constants, associated to the left. -/
def mk_checker (kinds : List Nat) (node : Node) : Bool :=
  kinds.foldl (fun acc k => acc || node.kindId == k) false

/-- The simpler predicate of the refinement claim, written from the spec's
words: the node's kind equals the if kind AND the node has a parent AND
that parent's kind equals the if kind. -/
def is_else_if_simple (if_type : Nat) (node : Node) : Bool :=
  node.kindId == if_type &&
    match node.parent with
    | some parent => parent.kindId == if_type
    | none => false

/-- A parsed syntax tree: a node kind id together with the ordered list of
children, each tagged with the role it occupies in this node. -/
inductive STree where
  | node (kindId : Nat) (children : List (ChildRole × STree))

def STree.kindId : STree → Nat
  | .node k _ => k

mutual

/-- Modelled from the spec: the cyclomatic decision-point rule of spec
section 4.4 restricted to the if kind — the metrics code itself is not
among the shown sources. Traverses the tree carrying each node's parent
handle and counts one decision point per if-kind node that does NOT match
the generated is_else_if predicate (the spec's "an is_else_if match does
not increment"). -/
def cyclomaticSkipElseIf (ifType : Nat) (parent : Option Node) (role : ChildRole) : STree → Nat
  | .node k cs =>
      (if k = ifType ∧ is_else_if ifType (Node.mk k role parent) = false then 1 else 0)
      + cyclomaticSkipElseIfList ifType (Node.mk k role parent) cs

def cyclomaticSkipElseIfList (ifType : Nat) (parent : Node) : List (ChildRole × STree) → Nat
  | [] => 0
  | (r, t) :: rest =>
      cyclomaticSkipElseIf ifType (some parent) r t
      + cyclomaticSkipElseIfList ifType parent rest
end

mutual

/-- Modelled from the spec: the decision-point count in which every
if-kind node contributes one point, the reading forced by spec section 8
(a depth-N chain contributes exactly N, and the end-to-end else-if
scenario counts base 1 plus two decision points for two if keywords). -/
def cyclomaticAllIf (ifType : Nat) : STree → Nat
  | .node k cs => (if k = ifType then 1 else 0) + cyclomaticAllIfList ifType cs

def cyclomaticAllIfList (ifType : Nat) : List (ChildRole × STree) → Nat
  | [] => 0
  | (_, t) :: rest => cyclomaticAllIf ifType t + cyclomaticAllIfList ifType rest
end

/-- The if / else if / ... / else chain with n conditions, in the
representation spec section 4.2 describes: each else-branch if is the
direct alternative child of the enclosing if node, each consequence is a
block of a distinct kind, and the final else branch is a plain block. -/
def elseIfChain (ifType blockType : Nat) : Nat → STree
  | 0 => .node blockType []
  | n + 1 =>
      .node ifType
        [(ChildRole.consequence, .node blockType []),
         (ChildRole.elseAlternative, elseIfChain ifType blockType n)]

/-- Metadata of one entry of the single language list from which mk_langs
(macros.rs lines 281-290) generates the enumeration, the lookup tables and
the dispatch arms. The concrete list lives outside the shown sources, so
the development is parametrized over an arbitrary registry. -/
structure LangEntry where
  camel : String
  description : String
  display : String
  exts : List String
  emacsModes : List String

/-- Modelled from the spec: the opaque preprocessing result
(PreprocResults); shared read-only, its internals never inspected by this
layer. -/
structure PreprocResults where
  tag : Nat

/-- A value of the LANG enumeration generated by mk_enum (macros.rs lines
46-63): one constructor per registry entry, identified with its position
in the declaration list. -/
abbrev LANG (reg : List LangEntry) : Type := Fin reg.length

/-- into_enum_iter (macros.rs lines 56-61): the array holding each of the
enum's constructors once, in declaration order. -/
def into_enum_iter (reg : List LangEntry) : List (LANG reg) :=
  List.finRange reg.length

/-- The parser value built by each dispatch arm: the grammar binding (its
registry entry), the source bytes, the path, the forwarded preprocessing
result, and the tree produced by the grammar — absent when the grammar
fails to produce one. -/
structure Parser where
  binding : LangEntry
  source : List Nat
  path : String
  pr : Option PreprocResults
  tree : Option STree

/-- Parser construction ($parser::new in the dispatch arms). The parse
itself is performed by the external grammar, passed in as parseFn. -/
def Parser.new (parseFn : LangEntry → List Nat → Option STree)
    (binding : LangEntry) (source : List Nat) (path : String)
    (pr : Option PreprocResults) : Parser :=
  { binding := binding, source := source, path := path, pr := pr,
    tree := parseFn binding source }

/-- The Callback contract used by mk_action: a configuration type, a
result type, and the call operation on a parser. -/
structure Callback (Cfg Res : Type) where
  call : Cfg → Parser → Res

/-- action (macros.rs lines 120-130): the match over LANG whose arm for
lang constructs the parser of that language's binding from the source,
path and preprocessing result, then invokes T.call on the configuration
and that parser. -/
def action {Cfg Res : Type} (T : Callback Cfg Res)
    (parseFn : LangEntry → List Nat → Option STree) (reg : List LangEntry)
    (lang : LANG reg) (source : List Nat) (path : String)
    (pr : Option PreprocResults) (cfg : Cfg) : Res :=
  T.call cfg (Parser.new parseFn (reg.get lang) source path pr)

/-- The bodies of action's match arms, one per registry entry, in
declaration order. -/
def action_arms {Cfg Res : Type} (T : Callback Cfg Res)
    (parseFn : LangEntry → List Nat → Option STree) (reg : List LangEntry)
    (source : List Nat) (path : String) (pr : Option PreprocResults)
    (cfg : Cfg) : List Res :=
  reg.map (fun e => T.call cfg (Parser.new parseFn e source path pr))

/-- Modelled from the spec: the metrics computation invoked by
get_function_spaces is not among the shown sources; per spec section 7 it
yields an absent result when the parser holds no tree, and otherwise runs
the metric computation on the tree. That computation is a parameter. -/
def metrics {F : Type} (computeM : STree → String → F) (parser : Parser)
    (path : String) : Option F :=
  match parser.tree with
  | none => none
  | some t => some (computeM t path)

/-- Modelled from the spec: operands_and_operators, the operator/operand
extraction invoked by get_ops, likewise not among the shown sources; the
same absent-without-tree shape as metrics. -/
def operands_and_operators {O : Type} (computeO : STree → String → O)
    (parser : Parser) (path : String) : Option O :=
  match parser.tree with
  | none => none
  | some t => some (computeO t path)

/-- get_function_spaces (macros.rs lines 150-160): matches on lang,
constructs that language's parser and calls metrics on it and the path. -/
def get_function_spaces {F : Type} (computeM : STree → String → F)
    (parseFn : LangEntry → List Nat → Option STree) (reg : List LangEntry)
    (lang : LANG reg) (source : List Nat) (path : String)
    (pr : Option PreprocResults) : Option F :=
  metrics computeM (Parser.new parseFn (reg.get lang) source path pr) path

/-- get_ops (macros.rs lines 182-192): matches on lang, constructs that
language's parser and calls operands_and_operators on it and the path. -/
def get_ops {O : Type} (computeO : STree → String → O)
    (parseFn : LangEntry → List Nat → Option STree) (reg : List LangEntry)
    (lang : LANG reg) (source : List Nat) (path : String)
    (pr : Option PreprocResults) : Option O :=
  operands_and_operators computeO (Parser.new parseFn (reg.get lang) source path pr)
    path

/-- The built-in metrics computation packaged as a Callback, with the path
as its configuration. -/
def metricsCallback {F : Type} (computeM : STree → String → F) :
    Callback String (Option F) :=
  ⟨fun path parser => metrics computeM parser path⟩

/-- The built-in operator/operand computation packaged as a Callback, with
the path as its configuration. -/
def opsCallback {O : Type} (computeO : STree → String → O) :
    Callback String (Option O) :=
  ⟨fun path parser => operands_and_operators computeO parser path⟩

/-- The generated string-match lookup shared by get_from_ext (macros.rs
lines 209-218) and get_from_emacs_mode (macros.rs lines 238-247): the
arms are laid out language by language in declaration order, so the first
language whose table contains the string wins; the trailing wildcard arm
yields none. -/
def lookup_first (reg : List LangEntry) (proj : LangEntry → List String)
    (s : String) : Option (LANG reg) :=
  (List.finRange reg.length).find? (fun i => decide (s ∈ proj (reg.get i)))

/-- get_from_ext (macros.rs lines 209-218). -/
def get_from_ext (reg : List LangEntry) (ext : String) : Option (LANG reg) :=
  lookup_first reg LangEntry.exts ext

/-- get_from_emacs_mode (macros.rs lines 238-247). -/
def get_from_emacs_mode (reg : List LangEntry) (mode : String) :
    Option (LANG reg) :=
  lookup_first reg LangEntry.emacsModes mode

/-- A two-language sample registry with disjoint lookup tables, used by
the concrete witnesses. -/
def sampleReg : List LangEntry :=
  [{ camel := "Rust", description := "The Rust language", display := "rust",
     exts := ["rs"], emacsModes := ["rust"] },
   { camel := "Cpp", description := "The C++ language", display := "c/c++",
     exts := ["cpp", "cc", "hh"], emacsModes := ["c++"] }]

/-- The first sample language. -/
def sampleLang0 : LANG sampleReg := ⟨0, by decide⟩

/-! Theorems. -/

/-- C1: the generated is_else_if returns true iff the node's kind id is the
binding's if kind and the node has an immediate parent whose kind id is
also the if kind; in particular it returns false whenever the node has no
parent. -/
theorem C1_is_else_if_iff (ifK : Nat) (node : Node) :
    (is_else_if ifK node = true ↔
      node.kindId = ifK ∧ node.parentKindId = some ifK)
    ∧ (node.parent = none → is_else_if ifK node = false) := by
  obtain ⟨k, r, p⟩ := node
  cases p with
  | none =>
      simp [is_else_if, Node.kindId, Node.parent, Node.parentKindId]
  | some q =>
      by_cases hk : k = ifK <;>
        simp [is_else_if, Node.kindId, Node.parent, Node.parentKindId, hk]

/-- C2 counterexample: an if-kind node sitting in the consequence position
(not the else clause) of another if still makes is_else_if return true,
against the claim that it returns false there. -/
theorem C2_counterexample_consequence_child :
    (Node.mk 1 ChildRole.consequence (some (Node.mk 1 ChildRole.other none))).role
        ≠ ChildRole.elseAlternative
    ∧ (Node.mk 1 ChildRole.consequence (some (Node.mk 1 ChildRole.other none))).parentKindId
        = some 1
    ∧ is_else_if 1 (Node.mk 1 ChildRole.consequence (some (Node.mk 1 ChildRole.other none)))
        = true := by
  decide

/-- C2 amended: is_else_if returns true exactly for an if-kind node whose
immediate parent is also if-kind, regardless of the child position the
node occupies (so also for a non-else-clause direct child of another if);
it returns false for a top-level if (no parent or a non-if parent) and for
a while or for node, whose kinds differ from the if kind. -/
theorem C2_amended_is_else_if (ifK whileK forK : Nat)
    (hw : whileK ≠ ifK) (hf : forK ≠ ifK)
    (node p : Node) (role : ChildRole) :
    (is_else_if ifK node = true →
      node.kindId = ifK ∧ node.parentKindId = some ifK)
    ∧ (node.kindId = ifK → node.parentKindId ≠ some ifK →
        is_else_if ifK node = false)
    ∧ (node.kindId = whileK → is_else_if ifK node = false)
    ∧ (node.kindId = forK → is_else_if ifK node = false)
    ∧ (p.kindId = ifK → is_else_if ifK (Node.mk ifK role (some p)) = true) := by
  obtain ⟨k, r, q⟩ := node
  refine ⟨?_, ?_, ?_, ?_, ?_⟩
  · intro h
    cases q with
    | none => simp [is_else_if, Node.kindId, Node.parent] at h
    | some q0 =>
        by_cases hk : k = ifK <;>
          simp [is_else_if, Node.kindId, Node.parent, Node.parentKindId, hk] at h ⊢
        exact h
  · intro hk hp
    cases q with
    | none => simp [is_else_if, Node.kindId, Node.parent]
    | some q0 =>
        obtain ⟨qk, qr, qp⟩ := q0
        simp [Node.kindId] at hk
        simp [Node.parentKindId, Node.parent, Node.kindId] at hp
        simp [is_else_if, Node.kindId, Node.parent, hk, hp]
  · intro hk
    simp [Node.kindId] at hk
    simp [is_else_if, Node.kindId, hk, hw]
  · intro hk
    simp [Node.kindId] at hk
    simp [is_else_if, Node.kindId, hk, hf]
  · intro hp
    obtain ⟨pk, pr, pp⟩ := p
    simp [Node.kindId] at hp
    simp [is_else_if, Node.kindId, Node.parent, hp]

/-- C2 amended, witness at concrete inputs. -/
theorem C2_amended_witness :
    (2 : Nat) ≠ 1 ∧ (3 : Nat) ≠ 1 ∧
    ((is_else_if 1 (Node.mk 2 ChildRole.other none) = true →
        (Node.mk 2 ChildRole.other none).kindId = 1
        ∧ (Node.mk 2 ChildRole.other none).parentKindId = some 1)
      ∧ ((Node.mk 2 ChildRole.other none).kindId = 1 →
          (Node.mk 2 ChildRole.other none).parentKindId ≠ some 1 →
          is_else_if 1 (Node.mk 2 ChildRole.other none) = false)
      ∧ ((Node.mk 2 ChildRole.other none).kindId = 2 →
          is_else_if 1 (Node.mk 2 ChildRole.other none) = false)
      ∧ ((Node.mk 2 ChildRole.other none).kindId = 3 →
          is_else_if 1 (Node.mk 2 ChildRole.other none) = false)
      ∧ ((Node.mk 1 ChildRole.other none).kindId = 1 →
          is_else_if 1
            (Node.mk 1 ChildRole.consequence (some (Node.mk 1 ChildRole.other none)))
            = true)) :=
  ⟨by decide, by decide,
    C2_amended_is_else_if 1 2 3 (by decide) (by decide)
      (Node.mk 2 ChildRole.other none) (Node.mk 1 ChildRole.other none)
      ChildRole.consequence⟩

/-- C9: the generated is_else_if is extensionally equal to the simpler
predicate that only tests the node's kind once; the repeated kind test in
the parent branch is redundant. -/
theorem C9_is_else_if_eq_simple (ifK : Nat) (node : Node) :
    is_else_if ifK node = is_else_if_simple ifK node := by
  obtain ⟨k, r, p⟩ := node
  cases p with
  | none =>
      by_cases hk : k = ifK <;>
        simp [is_else_if, is_else_if_simple, Node.kindId, Node.parent, hk]
  | some q =>
      by_cases hk : k = ifK <;>
        simp [is_else_if, is_else_if_simple, Node.kindId, Node.parent, hk]

theorem mk_checker_foldl (node : Node) (kinds : List Nat) (acc : Bool) :
    kinds.foldl (fun a k => a || node.kindId == k) acc
      = (acc || kinds.any (fun k => node.kindId == k)) := by
  induction kinds generalizing acc with
  | nil => simp
  | cons k rest ih =>
      simp [List.foldl_cons, List.any_cons, ih, Bool.or_assoc]

/-- C4: a predicate generated by mk_checker returns true iff the node's
kind id is one of the kind constants of the instantiation, and an
instantiation with an empty constant list returns false on every node. -/
theorem C4_mk_checker_iff (kinds : List Nat) (node : Node) :
    (mk_checker kinds node = true ↔ node.kindId ∈ kinds)
    ∧ mk_checker [] node = false := by
  constructor
  · rw [mk_checker, mk_checker_foldl]
    simp
  · rfl

theorem cyclomaticSkip_chain_under_if (ifK bK : Nat) (hb : bK ≠ ifK) :
    ∀ (n : Nat) (p : Node) (r : ChildRole), p.kindId = ifK →
      cyclomaticSkipElseIf ifK (some p) r (elseIfChain ifK bK n) = 0 := by
  intro n
  induction n with
  | zero =>
      intro p r hp
      simp [elseIfChain, cyclomaticSkipElseIf, cyclomaticSkipElseIfList,
        is_else_if, Node.kindId, hb]
  | succ n ih =>
      intro p r hp
      obtain ⟨pk, pr, pp⟩ := p
      simp [Node.kindId] at hp
      simp [elseIfChain, cyclomaticSkipElseIf, cyclomaticSkipElseIfList,
        is_else_if, Node.kindId, Node.parent, hp, hb, ih]

theorem cyclomaticSkip_chain_head (ifK bK : Nat) (hb : bK ≠ ifK)
    (r : ChildRole) (n : Nat) :
    cyclomaticSkipElseIf ifK none r (elseIfChain ifK bK (n + 1)) = 1 := by
  simp [elseIfChain, cyclomaticSkipElseIf, cyclomaticSkipElseIfList,
    is_else_if, Node.kindId, Node.parent, hb,
    cyclomaticSkip_chain_under_if ifK bK hb n (Node.mk ifK r none)
      ChildRole.elseAlternative rfl]

theorem cyclomaticAll_chain (ifK bK : Nat) (hb : bK ≠ ifK) :
    ∀ n : Nat, cyclomaticAllIf ifK (elseIfChain ifK bK n) = n := by
  intro n
  induction n with
  | zero => simp [elseIfChain, cyclomaticAllIf, cyclomaticAllIfList, hb]
  | succ n ih =>
      simp [elseIfChain, cyclomaticAllIf, cyclomaticAllIfList, hb, ih]
      omega

/-- C8 counterexample: on the depth-2 chain (if / else if / else, two
decision points expected), the section 4.4 rule under which an is_else_if
match does not increment yields a contribution of 1, not 2 — only the head
if counts, every continuation matches is_else_if and is skipped. -/
theorem C8_counterexample_skip_rule_depth_two :
    cyclomaticSkipElseIf 1 none ChildRole.other (elseIfChain 1 2 2) = 1
    ∧ cyclomaticSkipElseIf 1 none ChildRole.other (elseIfChain 1 2 2) ≠ 2 := by
  decide

/-- C8 amended: a depth-n chain contributes exactly n decision points
because the head if and every chain continuation each count one — the
counter must not skip is_else_if matches; the counter that does skip them
reports 1 for every nonempty chain regardless of n. -/
theorem C8_amended_chain_contribution (ifK bK n : Nat)
    (hb : bK ≠ ifK) (hn : 1 ≤ n) :
    cyclomaticAllIf ifK (elseIfChain ifK bK n) = n
    ∧ cyclomaticSkipElseIf ifK none ChildRole.other (elseIfChain ifK bK n) = 1 := by
  refine ⟨cyclomaticAll_chain ifK bK hb n, ?_⟩
  obtain ⟨m, rfl⟩ : ∃ m, n = m + 1 := ⟨n - 1, by omega⟩
  exact cyclomaticSkip_chain_head ifK bK hb ChildRole.other m

/-- C8 amended, witness on the depth-3 chain. -/
theorem C8_amended_witness :
    (2 : Nat) ≠ 1 ∧ (1 : Nat) ≤ 3 ∧
    (cyclomaticAllIf 1 (elseIfChain 1 2 3) = 3
      ∧ cyclomaticSkipElseIf 1 none ChildRole.other (elseIfChain 1 2 3) = 1) :=
  ⟨by decide, by decide, C8_amended_chain_contribution 1 2 3 (by decide) (by decide)⟩

/-- C3: for every LANG value the dispatch selects exactly one arm — the
one at the language's own position in the arm list — and that arm
constructs the Parser of that language's binding from the given source,
path and preprocessing result and invokes T.call on the configuration and
that parser; there is one arm per registry entry, so the match is
exhaustive. -/
theorem C3_action_dispatch {Cfg Res : Type} (T : Callback Cfg Res)
    (parseFn : LangEntry → List Nat → Option STree) (reg : List LangEntry)
    (lang : LANG reg) (source : List Nat) (path : String)
    (pr : Option PreprocResults) (cfg : Cfg) :
    action T parseFn reg lang source path pr cfg
        = T.call cfg (Parser.new parseFn (reg.get lang) source path pr)
    ∧ (action_arms T parseFn reg source path pr cfg)[lang.1]?
        = some (action T parseFn reg lang source path pr cfg)
    ∧ (action_arms T parseFn reg source path pr cfg).length = reg.length := by
  refine ⟨rfl, ?_, by simp [action_arms]⟩
  have h : lang.1 < reg.length := lang.isLt
  simp [action_arms, action, List.getElem?_eq_getElem, h, List.get_eq_getElem]

/-- C10: into_enum_iter yields every LANG value exactly once, in
declaration order (position i holds the i-th declared constructor), and
yields nothing else (its length is the number of declared languages). -/
theorem C10_into_enum_iter (reg : List LangEntry) (lang : LANG reg) :
    (into_enum_iter reg).count lang = 1
    ∧ (into_enum_iter reg).length = reg.length
    ∧ (into_enum_iter reg)[lang.1]? = some lang := by
  refine ⟨?_, by simp [into_enum_iter], ?_⟩
  · exact List.count_eq_one_of_mem (List.nodup_finRange _) (List.mem_finRange lang)
  · have h : lang.1 < (List.finRange reg.length).length := by
      simp [lang.isLt]
    simp [into_enum_iter, List.getElem?_eq_getElem, h]

theorem lookup_first_some_iff (reg : List LangEntry)
    (proj : LangEntry → List String)
    (hdisj : ∀ i j : LANG reg, i ≠ j →
      ∀ s ∈ proj (reg.get i), s ∉ proj (reg.get j))
    (s : String) (i : LANG reg) :
    lookup_first reg proj s = some i ↔ s ∈ proj (reg.get i) := by
  constructor
  · intro h
    have := List.find?_some h
    simpa using this
  · intro hs
    cases hfind : lookup_first reg proj s with
    | none =>
        rw [lookup_first, List.find?_eq_none] at hfind
        have hni := hfind i (List.mem_finRange i)
        rw [List.get_eq_getElem] at hs
        simp [hs] at hni
    | some j =>
        have hj : s ∈ proj (reg.get j) := by
          have := List.find?_some hfind
          simpa using this
        have hij : j = i := by
          by_contra hne
          exact hdisj j i hne s hj hs
        exact congrArg some hij

theorem lookup_first_none_iff (reg : List LangEntry)
    (proj : LangEntry → List String) (s : String) :
    lookup_first reg proj s = none ↔ ∀ j : LANG reg, s ∉ proj (reg.get j) := by
  rw [lookup_first, List.find?_eq_none]
  constructor
  · intro h j
    have := h j (List.mem_finRange j)
    simpa using this
  · intro h j _
    simpa using h j

/-- C5: over a registry whose extension tables (respectively editor-mode
tables) are pairwise disjoint, get_from_ext and get_from_emacs_mode are
total and return some language exactly when the string is one of that
language's registered extensions (respectively modes), and none exactly
when no language registers the string — never a failure. -/
theorem C5_lookups_total_optional (reg : List LangEntry)
    (hdisjExt : ∀ i j : LANG reg, i ≠ j →
      ∀ s ∈ (reg.get i).exts, s ∉ (reg.get j).exts)
    (hdisjMode : ∀ i j : LANG reg, i ≠ j →
      ∀ s ∈ (reg.get i).emacsModes, s ∉ (reg.get j).emacsModes)
    (ext mode : String) (i : LANG reg) :
    (get_from_ext reg ext = some i ↔ ext ∈ (reg.get i).exts)
    ∧ (get_from_ext reg ext = none ↔ ∀ j : LANG reg, ext ∉ (reg.get j).exts)
    ∧ (get_from_emacs_mode reg mode = some i ↔ mode ∈ (reg.get i).emacsModes)
    ∧ (get_from_emacs_mode reg mode = none ↔
        ∀ j : LANG reg, mode ∉ (reg.get j).emacsModes) :=
  ⟨lookup_first_some_iff reg LangEntry.exts hdisjExt ext i,
   lookup_first_none_iff reg LangEntry.exts ext,
   lookup_first_some_iff reg LangEntry.emacsModes hdisjMode mode i,
   lookup_first_none_iff reg LangEntry.emacsModes mode⟩

/-- C5, witness on the sample registry. -/
theorem C5_lookups_witness :
    (∀ i j : LANG sampleReg, i ≠ j →
      ∀ s ∈ (sampleReg.get i).exts, s ∉ (sampleReg.get j).exts)
    ∧ (∀ i j : LANG sampleReg, i ≠ j →
        ∀ s ∈ (sampleReg.get i).emacsModes, s ∉ (sampleReg.get j).emacsModes)
    ∧ ((get_from_ext sampleReg "rs" = some sampleLang0 ↔
          "rs" ∈ (sampleReg.get sampleLang0).exts)
      ∧ (get_from_ext sampleReg "rs" = none ↔
          ∀ j : LANG sampleReg, "rs" ∉ (sampleReg.get j).exts)
      ∧ (get_from_emacs_mode sampleReg "rust" = some sampleLang0 ↔
          "rust" ∈ (sampleReg.get sampleLang0).emacsModes)
      ∧ (get_from_emacs_mode sampleReg "rust" = none ↔
          ∀ j : LANG sampleReg, "rust" ∉ (sampleReg.get j).emacsModes)) :=
  ⟨by decide, by decide,
    C5_lookups_total_optional sampleReg (by decide) (by decide) "rs" "rust"
      sampleLang0⟩

/-- C6: for every language and every input source, when the grammar
produces no tree, get_function_spaces returns none rather than failing —
and it does so for every possible metric computation, i.e. no metric
computation is performed on such a file. -/
theorem C6_get_function_spaces_none {F : Type} (computeM : STree → String → F)
    (parseFn : LangEntry → List Nat → Option STree) (reg : List LangEntry)
    (lang : LANG reg) (source : List Nat) (path : String)
    (pr : Option PreprocResults)
    (h : parseFn (reg.get lang) source = none) :
    get_function_spaces computeM parseFn reg lang source path pr = none := by
  rw [List.get_eq_getElem] at h
  simp [get_function_spaces, metrics, Parser.new, h]

/-- C6, witness: a grammar that produces no tree on the sample registry. -/
theorem C6_witness :
    (fun (_ : LangEntry) (_ : List Nat) => (none : Option STree))
        (sampleReg.get sampleLang0) [] = none
    ∧ get_function_spaces (fun _ _ => (0 : Nat))
        (fun _ _ => none) sampleReg sampleLang0 [] "foo.rs" none = none :=
  ⟨rfl,
    C6_get_function_spaces_none (fun _ _ => (0 : Nat)) (fun _ _ => none)
      sampleReg sampleLang0 [] "foo.rs" none rfl⟩

/-- C7: the two built-in entry points are instances of the generic
dispatch — get_function_spaces equals action run with the metrics
callback, and get_ops equals action run with the operator/operand
callback, on the identically constructed parser (the path serving as the
callback configuration). -/
theorem C7_entry_points_are_dispatch {F O : Type}
    (computeM : STree → String → F) (computeO : STree → String → O)
    (parseFn : LangEntry → List Nat → Option STree) (reg : List LangEntry)
    (lang : LANG reg) (source : List Nat) (path : String)
    (pr : Option PreprocResults) :
    get_function_spaces computeM parseFn reg lang source path pr
        = action (metricsCallback computeM) parseFn reg lang source path pr path
    ∧ get_ops computeO parseFn reg lang source path pr
        = action (opsCallback computeO) parseFn reg lang source path pr path :=
  ⟨rfl, rfl⟩
